import Mathlib

/-!
Shallow embedding of the `py-graph` repository (src/Graph.py, src/utils.py):
the `_Entity` / `_Constraint` / `Factory` / `Graph` object model.

Modelling conventions:
* Python runtime values that flow through entity attributes are modelled by
  the inductive `PyVal`; `typeOf` mirrors Python's exact `type(v)` test
  (note `type(True) == int` is `False` in Python, so `tBool` and `tInt`
  are distinct).
* Exceptions are modelled by the inductive `PyError`; a mutating method that
  can raise returns `state × Option PyError`, where the returned state
  reflects exactly the mutations performed before the raise (Python leaves
  partial mutations in place when an exception propagates).
* Object identity (Python sets on `_Entity` / `_Constraint` objects are
  identity based, no `__eq__` / `__hash__` overrides) is modelled by `Nat`
  ids; a `World` / heap maps ids to object states.
* `clause` callbacks are pure functions passed explicitly; the `callback`
  (`_value_changed`) side effect is modelled by an event log `events`
  recording every invocation and its boolean argument.
-/

set_option autoImplicit false

instance {ε α : Type} [DecidableEq ε] [DecidableEq α] : DecidableEq (Except ε α)
  | Except.ok x, Except.ok y =>
    if h : x = y then isTrue (by rw [h]) else isFalse (fun hc => h (Except.ok.inj hc))
  | Except.error x, Except.error y =>
    if h : x = y then isTrue (by rw [h]) else isFalse (fun hc => h (Except.error.inj hc))
  | Except.ok _, Except.error _ => isFalse (fun hc => Except.noConfusion hc)
  | Except.error _, Except.ok _ => isFalse (fun hc => Except.noConfusion hc)

/-- Runtime types that can appear in an entity's `attribute_map`. -/
inductive PyType
  | tInt
  | tStr
  | tBool
  deriving DecidableEq

/-- Runtime values stored in entity attributes. -/
inductive PyVal
  | vInt (n : Int)
  | vStr (s : String)
  | vBool (b : Bool)
  deriving DecidableEq

/-- Python's exact `type(v)`: no subclass coercion (`bool` is not `int` here). -/
def typeOf : PyVal → PyType
  | PyVal.vInt _ => PyType.tInt
  | PyVal.vStr _ => PyType.tStr
  | PyVal.vBool _ => PyType.tBool

/-- Exceptions raised by Graph.py / utils.py.
`nameError` models the `NameError` raised in `_Entity.__getattr__` by the
reference to the name `protected`, which is a local variable of
`_Entity.__setattr__` and is not defined in `__getattr__`'s scope.
`danglingRef` is model internal: it marks a heap lookup of an object id that
does not exist, which cannot happen in Python where references are objects. -/
inductive PyError
  | attributeError
  | typeError
  | keyError
  | nameError
  | warning
  | assertionError
  | notImplementedError
  | danglingRef
  deriving DecidableEq

/-- First-match association-list lookup (Python `dict` access / `in`). -/
def alookup {κ α : Type} [DecidableEq κ] : List (κ × α) → κ → Option α
  | [], _ => none
  | (k, v) :: rest, k1 => if k = k1 then some v else alookup rest k1

/-- Python `dict` store: overwrite the binding if the key is present,
append it otherwise. -/
def setStore {κ α : Type} [DecidableEq κ] : List (κ × α) → κ → α → List (κ × α)
  | [], k, v => [(k, v)]
  | (k1, v1) :: rest, k, v =>
    if k1 = k then (k, v) :: rest else (k1, v1) :: setStore rest k v

/-- Update the binding of an existing heap id in place. -/
def heapSet {α : Type} : List (Nat × α) → Nat → α → List (Nat × α)
  | [], _, _ => []
  | (k, w) :: rest, i, v => (if k = i then (i, v) else (k, w)) :: heapSet rest i v

/-- A heap id strictly larger than every id bound in `h` (fresh allocation). -/
def freshId {α : Type} (h : List (Nat × α)) : Nat :=
  (h.map Prod.fst).foldr max 0 + 1

def keyConstraints : String := "constraints"

def keyIdentifier : String := "identifier"

def keyAttributeMap : String := "attribute_map"

/-- The `protected` list of `_Entity.__setattr__`. -/
def protectedAttrs : List String := [keyConstraints, keyIdentifier, keyAttributeMap]

/-- `_Entity`: `identifier` and `attribute_map` are fixed at construction;
`attrs` is the value-attribute part of the instance `__dict__`;
`constraints` is the `self.constraints` list, holding constraint ids. -/
structure Entity where
  identifier : String
  attribute_map : List (String × PyType)
  attrs : List (String × PyVal)
  constraints : List Nat
  deriving DecidableEq

/-- `_Entity.__setattr__` (also the path of `__setitem__`): rejects protected
names, then unknown attributes (`AttributeError`), then mismatched exact types
(`TypeError`); otherwise stores the value. The returned entity is the
post-state: every failing branch raises before mutating, so it returns the
entity unchanged. -/
def Entity.setattr (e : Entity) (key : String) (v : PyVal) : Entity × Option PyError :=
  if key ∈ protectedAttrs then (e, some PyError.attributeError)
  else
    match alookup e.attribute_map key with
    | none => (e, some PyError.attributeError)
    | some t =>
      if typeOf v = t then ({ e with attrs := setStore e.attrs key v }, none)
      else (e, some PyError.typeError)

/-- Result of an attribute read: a stored `PyVal`, or one of the three
protected bookkeeping objects (`constraints` / `identifier` /
`attribute_map`), which are found directly in the instance `__dict__`. -/
inductive GetRes
  | val (v : PyVal)
  | internalObj (name : String)
  deriving DecidableEq

/-- Attribute read `e.item` (also the path of `__getitem__`): ordinary
`__getattribute__` lookup finds protected names and previously set values in
`__dict__`; otherwise `__getattr__` runs, where
`if item not in self.attribute_map and item not in protected:` evaluates the
undefined name `protected` (raising `NameError`) whenever `item` is not in the
schema, and `return self.__dict__[item]` raises `KeyError` for a schema key
that was never set. -/
def Entity.getattr (e : Entity) (item : String) : Except PyError GetRes :=
  if item ∈ protectedAttrs then Except.ok (GetRes.internalObj item)
  else
    match alookup e.attrs item with
    | some v => Except.ok (GetRes.val v)
    | none =>
      match alookup e.attribute_map item with
      | some _ => Except.error PyError.keyError
      | none => Except.error PyError.nameError

/-- `_Constraint`: `satisfied` is the `_satisfied` flag, `entity` the id of
the linked entity (`None` when unlinked), and `events` the log of
`_value_changed` callback invocations with their boolean argument. -/
structure Constraint where
  identifier : String
  satisfied : Bool
  entity : Option Nat
  events : List Bool
  deriving DecidableEq

/-- The `satisfied` property setter: mutates the flag and invokes the callback
only when the new value differs from the current one (edge-triggered). -/
def setSatisfied (c : Constraint) (value : Bool) : Constraint :=
  if c.satisfied = value then c
  else { c with satisfied := value, events := c.events ++ [value] }

/-- `_Constraint.satisfy`. -/
def Constraint.satisfy (c : Constraint) : Constraint :=
  setSatisfied c true

/-- `_Constraint.fail`. -/
def Constraint.failC (c : Constraint) : Constraint :=
  setSatisfied c false

/-- `_Constraint.check`, given the result `r` of evaluating
`self.clause(self.entity)` (the clause is pure, so `r` is determined by the
linked entity's current state). Raises `Warning` when unlinked, leaving the
state untouched. -/
def Constraint.check (c : Constraint) (r : Bool) : Constraint × Option PyError :=
  match c.entity with
  | none => (c, some PyError.warning)
  | some _ => (setSatisfied c r, none)

/-- `_Constraint.link_to`: sets the linked entity only when currently unset
(first-write-wins); a repeat call is a silent no-op. -/
def Constraint.link_to (c : Constraint) (eid : Nat) : Constraint :=
  match c.entity with
  | none => { c with entity := some eid }
  | some _ => c

/-- One call in a `satisfy` / `fail` / `check` sequence; `checkOp r` carries
the clause's result on the linked entity at that call. -/
inductive COp
  | satisfyOp
  | failOp
  | checkOp (r : Bool)
  deriving DecidableEq

/-- Execute one call; the post-state is paired with the exception, if any
(the `Warning` of an unlinked `check` leaves the constraint unchanged). -/
def runCOp (c : Constraint) : COp → Constraint × Option PyError
  | COp.satisfyOp => (c.satisfy, none)
  | COp.failOp => (c.failC, none)
  | COp.checkOp r => c.check r

/-- `n` successive `check()` calls whose clause result is the constant `r`. -/
def runChecks (c : Constraint) (r : Bool) : Nat → Constraint
  | 0 => c
  | n + 1 => ((runChecks c r n).check r).1

/-- The object world the `Graph` membership operations run against:
`centity c` is constraint `c`'s linked entity id, `econstraints e` is entity
`e`'s constraint list. `Graph.add` / `Graph.remove` read but never mutate it. -/
structure World where
  centity : Nat → Option Nat
  econstraints : Nat → List Nat

/-- The two identity-based membership sets `_entities` / `_constraints`. -/
structure GraphState where
  entities : Finset Nat
  constraints : Finset Nat
  deriving DecidableEq

def graphEmpty : GraphState := ⟨∅, ∅⟩

/-- The `_Constraint` branch of `Graph.add`: the constraint is inserted into
`_constraints` BEFORE the unlinked test, so a failing add leaves the unlinked
constraint in the set. -/
def addConstraintG (W : World) (g : GraphState) (c : Nat) : GraphState × Option PyError :=
  let g1 : GraphState := ⟨g.entities, insert c g.constraints⟩
  match W.centity c with
  | none => (g1, some PyError.assertionError)
  | some e => (⟨insert e g1.entities, g1.constraints⟩, none)

/-- The `for constraint in obj.constraints: self.add(constraint)` loop of the
`_Entity` branch of `Graph.add`; an exception aborts the loop, keeping the
mutations already made. -/
def addConstraintListG (W : World) : GraphState → List Nat → GraphState × Option PyError
  | g, [] => (g, none)
  | g, c :: rest =>
    match addConstraintG W g c with
    | (g1, some err) => (g1, some err)
    | (g1, none) => addConstraintListG W g1 rest

/-- The `_Entity` branch of `Graph.add`. -/
def addEntityG (W : World) (g : GraphState) (e : Nat) : GraphState × Option PyError :=
  addConstraintListG W ⟨insert e g.entities, g.constraints⟩ (W.econstraints e)

/-- The `_Constraint` branch of `Graph.remove`: Python `set.remove` raises
`KeyError` when the element is absent. -/
def removeConstraintG (g : GraphState) (c : Nat) : GraphState × Option PyError :=
  if c ∈ g.constraints then (⟨g.entities, g.constraints.erase c⟩, none)
  else (g, some PyError.keyError)

/-- The constraint-removal loop of the `_Entity` branch of `Graph.remove`. -/
def removeConstraintListG : GraphState → List Nat → GraphState × Option PyError
  | g, [] => (g, none)
  | g, c :: rest =>
    match removeConstraintG g c with
    | (g1, some err) => (g1, some err)
    | (g1, none) => removeConstraintListG g1 rest

/-- The `_Entity` branch of `Graph.remove`: the entity is removed from
`_entities` first (raising `KeyError` when absent), then each of its
constraints is removed. -/
def removeEntityG (W : World) (g : GraphState) (e : Nat) : GraphState × Option PyError :=
  if e ∈ g.entities then
    removeConstraintListG ⟨g.entities.erase e, g.constraints⟩ (W.econstraints e)
  else (g, some PyError.keyError)

/-- One `Graph.add` / `Graph.remove` call, tagged by the runtime kind of its
argument (the `type(obj) ==` dispatch of Graph.py). -/
inductive GOp
  | addE (e : Nat)
  | addC (c : Nat)
  | remE (e : Nat)
  | remC (c : Nat)
  deriving DecidableEq

def runGOp (W : World) (g : GraphState) : GOp → GraphState × Option PyError
  | GOp.addE e => addEntityG W g e
  | GOp.addC c => addConstraintG W g c
  | GOp.remE e => removeEntityG W g e
  | GOp.remC c => removeConstraintG g c

/-- Run a call sequence; a raised exception propagates to the caller but the
mutations made before it persist (Python semantics), so the sequence's state
threads through regardless. -/
def runGOps (W : World) (g : GraphState) : List GOp → GraphState
  | [] => g
  | op :: rest => runGOps W (runGOp W g op).1 rest

/-- `true` when no call in the sequence raises. -/
def opsOk (W : World) (g : GraphState) : List GOp → Bool
  | [] => true
  | op :: rest => (runGOp W g op).2.isNone && opsOk W (runGOp W g op).1 rest

/-- The C1 graph invariant: every constraint in `_constraints` is linked and
its linked entity is in `_entities`. -/
def graphInv (W : World) (g : GraphState) : Prop :=
  ∀ c ∈ g.constraints, ∃ e ∈ g.entities, W.centity c = some e

instance (W : World) (g : GraphState) : Decidable (graphInv W g) := by
  unfold graphInv
  infer_instance

/-- Well-linked world: every linked constraint appears in its linked entity's
constraint list (this is what `Factory.link` establishes). -/
def linkConsistent (W : World) : Prop :=
  ∀ c e, W.centity c = some e → c ∈ W.econstraints e

/-- `Factory`: `_entity_map` maps entity-type identifiers to their attribute
schemas, `_constraint_map` maps constraint-type identifiers to their companion
entity-type identifier. -/
structure Factory where
  entity_map : List (String × List (String × PyType))
  constraint_map : List (String × String)
  deriving DecidableEq

/-- `Factory.register_entity`: silent no-op when the identifier is taken. -/
def Factory.register_entity (f : Factory) (id : String)
    (am : List (String × PyType)) : Factory :=
  match alookup f.entity_map id with
  | some _ => f
  | none => { f with entity_map := (id, am) :: f.entity_map }

/-- `Factory.register_constraint`: `AssertionError` when the companion entity
type is unregistered; silent no-op when the identifier is taken. -/
def Factory.register_constraint (f : Factory) (id : String)
    (entity_type : String) : Factory × Option PyError :=
  match alookup f.entity_map entity_type with
  | none => (f, some PyError.assertionError)
  | some _ =>
    match alookup f.constraint_map id with
    | some _ => (f, none)
    | none => ({ f with constraint_map := (id, entity_type) :: f.constraint_map }, none)

/-- The `for p in obj: entity[p] = obj[p]` population loop of
`Factory.create_entity`: each pair goes through `__setitem__` / `__setattr__`,
re-validating its type; the first failure propagates. -/
def populate : Entity → List (String × PyVal) → Except PyError Entity
  | e, [] => Except.ok e
  | e, (k, v) :: rest =>
    match e.setattr k v with
    | (_, some err) => Except.error err
    | (e1, none) => populate e1 rest

/-- `Factory.create_entity`: `AttributeError` when the identifier is not
registered; otherwise a fresh entity with the registered schema, optionally
populated from `obj` (a dict, or an object taken through its `__dict__`,
modelled as a key/value list in iteration order). -/
def Factory.create_entity (f : Factory) (id : String)
    (obj : Option (List (String × PyVal))) : Except PyError Entity :=
  match alookup f.entity_map id with
  | none => Except.error PyError.attributeError
  | some am =>
    let e0 : Entity := ⟨id, am, [], []⟩
    match obj with
    | none => Except.ok e0
    | some pairs => populate e0 pairs

/-- `Factory.create_constraint`: `AttributeError` when the identifier is not
registered; otherwise a fresh unlinked, unsatisfied constraint. -/
def Factory.create_constraint (f : Factory) (id : String) : Except PyError Constraint :=
  match alookup f.constraint_map id with
  | none => Except.error PyError.attributeError
  | some _ => Except.ok ⟨id, false, none, []⟩

/-- The whole object world plus one `Graph`: heaps of entity and constraint
objects addressed by id, the graph's two membership sets, and the graph's
optional owned `Factory`. -/
structure Sys where
  heapE : List (Nat × Entity)
  heapC : List (Nat × Constraint)
  graphE : Finset Nat
  graphC : Finset Nat
  factory : Option Factory
  deriving DecidableEq

/-- The `World` view of a system's heaps, as read by `Graph.add` /
`Graph.remove`. -/
def Sys.world (s : Sys) : World :=
  ⟨fun c => (alookup s.heapC c).bind Constraint.entity,
   fun e => ((alookup s.heapE e).map Entity.constraints).getD []⟩

/-- `Factory.link` on objects `cid` / `eid` resolved through the heap, with
`clause` the constraint's predicate. In order: the unguarded registry access
`self._constraint_map[constraint.identifier]` (`KeyError` when the constraint
type was never registered), the companion-type compatibility test
(`AttributeError` on mismatch), `constraint.link_to(entity)` (first-write
wins), `entity.add_constraint(constraint)` (append, then `constraint.check()`
on the entity the constraint is actually linked to), and a final explicit
`constraint.check()`. -/
def linkSys (s : Sys) (f : Factory) (cid eid : Nat) (clause : Entity → Bool) :
    Sys × Option PyError :=
  match alookup s.heapC cid, alookup s.heapE eid with
  | some c, some e =>
    match alookup f.constraint_map c.identifier with
    | none => (s, some PyError.keyError)
    | some comp =>
      if comp = e.identifier then
        let c1 := c.link_to eid
        let e1 := { e with constraints := e.constraints ++ [cid] }
        let s1 : Sys :=
          { s with heapC := heapSet s.heapC cid c1, heapE := heapSet s.heapE eid e1 }
        match c1.entity with
        | none => (s1, some PyError.warning)
        | some eid2 =>
          match alookup s1.heapE eid2 with
          | none => (s1, some PyError.danglingRef)
          | some etgt =>
            let c2 := setSatisfied c1 (clause etgt)
            let c3 := setSatisfied c2 (clause etgt)
            ({ s1 with heapC := heapSet s1.heapC cid c3 }, none)
      else (s, some PyError.attributeError)
  | _, _ => (s, some PyError.danglingRef)

/-- `Graph.register_entity` passthrough: no-op without a factory. -/
def registerEntityG (s : Sys) (id : String) (am : List (String × PyType)) : Sys :=
  match s.factory with
  | none => s
  | some f => { s with factory := some (f.register_entity id am) }

/-- `Graph.register_constraint` passthrough: no-op without a factory. -/
def registerConstraintG (s : Sys) (id : String) (entity_type : String) :
    Sys × Option PyError :=
  match s.factory with
  | none => (s, none)
  | some f =>
    let (f1, err) := f.register_constraint id entity_type
    ({ s with factory := some f1 }, err)

/-- `Graph.create_entity`: returns `None` without a factory; otherwise builds
the entity via the factory (allocating a fresh heap id) and `self.add`s it.
The third component is the returned entity id (`none` when nothing is
returned, i.e. no factory or an exception propagated). -/
def createEntityG (s : Sys) (id : String) (obj : Option (List (String × PyVal))) :
    Sys × Option PyError × Option Nat :=
  match s.factory with
  | none => (s, none, none)
  | some f =>
    match f.create_entity id obj with
    | Except.error err => (s, some err, none)
    | Except.ok ent =>
      let eid := freshId s.heapE
      let s1 : Sys := { s with heapE := s.heapE ++ [(eid, ent)] }
      let (g1, err) := addEntityG s1.world ⟨s1.graphE, s1.graphC⟩ eid
      let s2 : Sys := { s1 with graphE := g1.entities, graphC := g1.constraints }
      match err with
      | some e => (s2, some e, none)
      | none => (s2, none, some eid)

/-- `Graph.create_constraint`: returns `None` without a factory; otherwise
builds the constraint via the factory (fresh heap id); only when `link_to` is
supplied does it `self.factory.link` the pair and `self.add` the constraint. -/
def createConstraintG (s : Sys) (id : String) (clause : Entity → Bool)
    (link_to : Option Nat) : Sys × Option PyError × Option Nat :=
  match s.factory with
  | none => (s, none, none)
  | some f =>
    match f.create_constraint id with
    | Except.error err => (s, some err, none)
    | Except.ok c =>
      let cid := freshId s.heapC
      let s1 : Sys := { s with heapC := s.heapC ++ [(cid, c)] }
      match link_to with
      | none => (s1, none, some cid)
      | some eid =>
        match linkSys s1 f cid eid clause with
        | (s2, some err) => (s2, some err, none)
        | (s2, none) =>
          let (g1, err) := addConstraintG s2.world ⟨s2.graphE, s2.graphC⟩ cid
          let s3 : Sys := { s2 with graphE := g1.entities, graphC := g1.constraints }
          match err with
          | some e => (s3, some e, none)
          | none => (s3, none, some cid)

/-! Concrete fixtures used to evaluate the model on closed inputs. -/

def kSubject : String := "subject"

def kName : String := "name"

def kC1 : String := "c1"

def kGhost : String := "ghost"

/-- A world with one constraint (id 0) linked to entity 0 whose own
constraint list is empty: buildable in Python via `c.link_to(e)` without
`e.add_constraint(c)`. -/
def W0 : World := ⟨fun _ => some 0, fun _ => []⟩

/-- A link-consistent world: constraint 0 is linked to entity 0 and entity 0
lists constraint 0. -/
def Wgood : World :=
  ⟨fun c => if c = 0 then some 0 else none,
   fun e => if e = 0 then [0] else []⟩

/-- A factory with entity type `subject` (schema `{name : str}`) and
constraint type `c1` tied to `subject`. -/
def f0 : Factory := ⟨[(kSubject, [(kName, PyType.tStr)])], [(kC1, kSubject)]⟩

/-- An empty graph owning `f0`. -/
def s0 : Sys := ⟨[], [], ∅, ∅, some f0⟩

/-- An empty graph with no factory. -/
def s0n : Sys := ⟨[], [], ∅, ∅, none⟩

/-- `s0` after `create_entity("subject")`: entity id 1 in the heap and the
graph's entity set. -/
def sE : Sys := (createEntityG s0 kSubject none).1

/-- The entity object `create_entity("subject")` builds. -/
def entSubject : Entity := ⟨kSubject, [(kName, PyType.tStr)], [], []⟩

/-- An entity whose schema declares the protected name `identifier`. -/
def e3 : Entity := ⟨kSubject, [(keyIdentifier, PyType.tStr)], [], []⟩

/-- A fresh `subject` entity with schema `{name : str}` and nothing set. -/
def e4 : Entity := ⟨kSubject, [(kName, PyType.tStr)], [], []⟩

/-- A constraint linked to entity 0. -/
def cW : Constraint := ⟨kC1, false, some 0, []⟩

/-- An unlinked constraint. -/
def cU : Constraint := ⟨kC1, false, none, []⟩

/-- An unlinked constraint of the unregistered type `ghost`. -/
def cGhost : Constraint := ⟨kGhost, false, none, []⟩

/-- A system holding `e4` at entity id 0 and `cGhost` at constraint id 0. -/
def sX : Sys := ⟨[(0, e4)], [(0, cGhost)], ∅, ∅, some f0⟩

/-- A graph holding entity 0 but not constraint 0. -/
def gW : GraphState := ⟨{0}, ∅⟩

/-! Association-list and heap lemmas. -/

theorem alookup_setStore_self {κ α : Type} [DecidableEq κ]
    (l : List (κ × α)) (k : κ) (v : α) : alookup (setStore l k v) k = some v := by
  induction l with
  | nil => simp [setStore, alookup]
  | cons p rest ih =>
    obtain ⟨k1, v1⟩ := p
    by_cases h : k1 = k
    · simp [setStore, h, alookup]
    · simp [setStore, h, alookup, ih]

theorem alookup_append_right {κ α : Type} [DecidableEq κ]
    (l1 l2 : List (κ × α)) (k : κ) (h : alookup l1 k = none) :
    alookup (l1 ++ l2) k = alookup l2 k := by
  induction l1 with
  | nil => simp
  | cons p rest ih =>
    obtain ⟨k1, v1⟩ := p
    by_cases hk : k1 = k
    · simp [alookup, hk] at h
    · simp only [List.cons_append, alookup, if_neg hk] at h ⊢
      exact ih h

theorem le_foldr_max (l : List Nat) (k : Nat) (h : k ∈ l) : k ≤ l.foldr max 0 := by
  induction l with
  | nil => cases h
  | cons a rest ih =>
    rcases List.mem_cons.mp h with h | h
    · subst h; exact le_max_left _ _
    · exact le_trans (ih h) (le_max_right _ _)

theorem alookup_of_keys_lt {α : Type} (h : List (Nat × α)) (n : Nat)
    (hn : ∀ k ∈ h.map Prod.fst, k < n) : alookup h n = none := by
  induction h with
  | nil => rfl
  | cons p rest ih =>
    obtain ⟨k1, v1⟩ := p
    have hk : k1 < n := hn k1 (by simp)
    have : k1 ≠ n := Nat.ne_of_lt hk
    simp only [alookup, if_neg this]
    exact ih (fun k hk1 => hn k (by simp [hk1]))

theorem alookup_freshId {α : Type} (h : List (Nat × α)) : alookup h (freshId h) = none :=
  alookup_of_keys_lt h (freshId h)
    (fun _ hk => Nat.lt_succ_of_le (le_foldr_max _ _ hk))

theorem alookup_snoc_fresh {α : Type} (h : List (Nat × α)) (v : α) :
    alookup (h ++ [(freshId h, v)]) (freshId h) = some v := by
  rw [alookup_append_right _ _ _ (alookup_freshId h)]
  simp [alookup]

theorem alookup_heapSet_self {α : Type} (h : List (Nat × α)) (i : Nat) (v w : α)
    (hw : alookup h i = some w) : alookup (heapSet h i v) i = some v := by
  induction h with
  | nil => simp [alookup] at hw
  | cons p rest ih =>
    obtain ⟨k1, v1⟩ := p
    unfold heapSet
    by_cases hk : k1 = i
    · rw [if_pos hk]
      simp [alookup]
    · rw [if_neg hk]
      simp only [alookup, if_neg hk] at hw
      simp only [alookup, if_neg hk]
      exact ih hw

/-! Entity lemmas. -/

theorem setattr_constraints (e : Entity) (k : String) (v : PyVal) :
    (e.setattr k v).1.constraints = e.constraints := by
  unfold Entity.setattr
  split
  · rfl
  · split
    · rfl
    · split <;> rfl

theorem setattr_none_or_id (e : Entity) (k : String) (v : PyVal) :
    (e.setattr k v).2 = none ∨ (e.setattr k v).1 = e := by
  unfold Entity.setattr
  split
  · exact Or.inr rfl
  · split
    · exact Or.inr rfl
    · split
      · exact Or.inl rfl
      · exact Or.inr rfl

theorem populate_ok_constraints :
    ∀ (l : List (String × PyVal)) (e e1 : Entity), populate e l = Except.ok e1 →
      e1.constraints = e.constraints := by
  intro l
  induction l with
  | nil =>
    intro e e1 h
    simp only [populate] at h
    cases h
    rfl
  | cons p rest ih =>
    intro e e1 h
    obtain ⟨k, v⟩ := p
    simp only [populate] at h
    rcases hs : e.setattr k v with ⟨e2, err⟩
    rw [hs] at h
    cases err with
    | some er => simp at h
    | none =>
      have h2 := ih e2 e1 h
      have h3 := setattr_constraints e k v
      rw [hs] at h3
      rw [h2, h3]

theorem create_entity_ok_constraints (f : Factory) (id : String)
    (obj : Option (List (String × PyVal))) (ent : Entity)
    (h : f.create_entity id obj = Except.ok ent) : ent.constraints = [] := by
  unfold Factory.create_entity at h
  rcases ham : alookup f.entity_map id with _ | am
  · rw [ham] at h; cases h
  · rw [ham] at h
    cases obj with
    | none => cases h; rfl
    | some pairs => exact populate_ok_constraints pairs _ ent h

/-! Constraint lemmas. -/

theorem setSatisfied_entity (c : Constraint) (v : Bool) :
    (setSatisfied c v).entity = c.entity := by
  unfold setSatisfied
  split <;> rfl

theorem setSatisfied_satisfied (c : Constraint) (v : Bool) :
    (setSatisfied c v).satisfied = v := by
  unfold setSatisfied
  split
  · assumption
  · rfl

theorem setSatisfied_of_eq (c : Constraint) (v : Bool) (h : c.satisfied = v) :
    setSatisfied c v = c := by
  unfold setSatisfied
  simp [h]

theorem setSatisfied_events (c : Constraint) (v : Bool) :
    ((setSatisfied c v).satisfied ≠ c.satisfied →
      (setSatisfied c v).events = c.events ++ [(setSatisfied c v).satisfied]) ∧
    ((setSatisfied c v).satisfied = c.satisfied → (setSatisfied c v).events = c.events) := by
  by_cases h : c.satisfied = v
  · rw [setSatisfied_of_eq c v h]
    exact ⟨fun hc => absurd rfl hc, fun _ => rfl⟩
  · constructor
    · intro _
      rw [setSatisfied_satisfied]
      unfold setSatisfied
      simp [h]
    · intro hc
      rw [setSatisfied_satisfied] at hc
      exact absurd hc.symm h

theorem runChecks_props (c : Constraint) (r : Bool) :
    ∀ n, (runChecks c r n).entity = c.entity ∧
      (runChecks c r n).events.length ≤ c.events.length + 1 ∧
      (∀ m, n = m + 1 → c.entity ≠ none → (runChecks c r n).satisfied = r) := by
  intro n
  induction n with
  | zero =>
    exact ⟨rfl, Nat.le_succ _, fun m h => by cases h⟩
  | succ n ih =>
    obtain ⟨ihe, ihl, ihs⟩ := ih
    rcases he : (runChecks c r n).entity with _ | eid
    · have hred : runChecks c r (n + 1) = runChecks c r n := by
        simp only [runChecks, Constraint.check, he]
      have hce : c.entity = none := ihe.symm.trans he
      refine ⟨by rw [hred]; exact ihe, by rw [hred]; exact ihl, ?_⟩
      intro m _ hne
      exact absurd hce hne
    · have hce : c.entity = some eid := ihe.symm.trans he
      have hred : runChecks c r (n + 1) = setSatisfied (runChecks c r n) r := by
        simp only [runChecks, Constraint.check, he]
      refine ⟨?_, ?_, ?_⟩
      · rw [hred, setSatisfied_entity]
        exact ihe
      · rw [hred]
        by_cases hs : (runChecks c r n).satisfied = r
        · rw [setSatisfied_of_eq _ _ hs]
          exact ihl
        · have hev : (setSatisfied (runChecks c r n) r).events =
              (runChecks c r n).events ++ [r] := by
            unfold setSatisfied
            rw [if_neg hs]
          rw [hev, List.length_append]
          cases n with
          | zero => simp [runChecks]
          | succ m =>
            have hsat := ihs m rfl (by rw [hce]; exact fun hx => Option.noConfusion hx)
            exact absurd hsat hs
      · intro m _ _
        rw [hred, setSatisfied_satisfied]

/-! Graph membership lemmas (claim C1 machinery). -/

theorem addConstraintG_inv (W : World) (g : GraphState) (c : Nat)
    (h : (addConstraintG W g c).2 = none) (hI : graphInv W g) :
    graphInv W (addConstraintG W g c).1 := by
  rcases hc : W.centity c with _ | e
  · simp [addConstraintG, hc] at h
  · simp only [addConstraintG, hc]
    intro c1 hc1
    rcases Finset.mem_insert.mp hc1 with h1 | h1
    · subst h1
      exact ⟨e, Finset.mem_insert_self e _, hc⟩
    · obtain ⟨e1, he1, heq⟩ := hI c1 h1
      exact ⟨e1, Finset.mem_insert_of_mem he1, heq⟩

theorem addConstraintListG_inv (W : World) :
    ∀ (l : List Nat) (g : GraphState), (addConstraintListG W g l).2 = none →
      graphInv W g → graphInv W (addConstraintListG W g l).1 := by
  intro l
  induction l with
  | nil =>
    intro g _ hI
    exact hI
  | cons c rest ih =>
    intro g h hI
    simp only [addConstraintListG] at h ⊢
    rcases ha : addConstraintG W g c with ⟨g1, err⟩
    rw [ha] at h
    cases err with
    | some e => simp at h
    | none =>
      have h1 : (addConstraintG W g c).2 = none := by rw [ha]
      have hg1 := addConstraintG_inv W g c h1 hI
      rw [ha] at hg1
      exact ih g1 h hg1

theorem addEntityG_inv (W : World) (g : GraphState) (e : Nat)
    (h : (addEntityG W g e).2 = none) (hI : graphInv W g) :
    graphInv W (addEntityG W g e).1 := by
  unfold addEntityG at *
  apply addConstraintListG_inv W _ _ h
  intro c1 hc1
  obtain ⟨e1, he1, heq⟩ := hI c1 hc1
  exact ⟨e1, Finset.mem_insert_of_mem he1, heq⟩

theorem removeConstraintG_entities (g : GraphState) (c : Nat) :
    (removeConstraintG g c).1.entities = g.entities := by
  unfold removeConstraintG
  split <;> rfl

theorem removeConstraintG_subset (g : GraphState) (c : Nat) :
    (removeConstraintG g c).1.constraints ⊆ g.constraints := by
  unfold removeConstraintG
  split
  · exact Finset.erase_subset _ _
  · exact subset_rfl

theorem removeConstraintG_inv (W : World) (g : GraphState) (c : Nat)
    (hI : graphInv W g) : graphInv W (removeConstraintG g c).1 := by
  intro c1 hc1
  obtain ⟨e1, he1, heq⟩ := hI c1 (removeConstraintG_subset g c hc1)
  refine ⟨e1, ?_, heq⟩
  rw [removeConstraintG_entities]
  exact he1

theorem removeConstraintListG_entities :
    ∀ (l : List Nat) (g : GraphState),
      (removeConstraintListG g l).1.entities = g.entities := by
  intro l
  induction l with
  | nil =>
    intro g
    rfl
  | cons c rest ih =>
    intro g
    simp only [removeConstraintListG]
    rcases hr : removeConstraintG g c with ⟨g1, err⟩
    have hent : g1.entities = g.entities := by
      rw [← removeConstraintG_entities g c, hr]
    cases err with
    | some e => exact hent
    | none => exact (ih g1).trans hent

theorem removeConstraintListG_subset :
    ∀ (l : List Nat) (g : GraphState),
      (removeConstraintListG g l).1.constraints ⊆ g.constraints := by
  intro l
  induction l with
  | nil =>
    intro g
    exact subset_rfl
  | cons c rest ih =>
    intro g
    simp only [removeConstraintListG]
    rcases hr : removeConstraintG g c with ⟨g1, err⟩
    have hsub : g1.constraints ⊆ g.constraints := by
      have hx := removeConstraintG_subset g c
      rw [hr] at hx
      exact hx
    cases err with
    | some e => exact hsub
    | none => exact subset_trans (ih g1) hsub

theorem removeConstraintListG_removes :
    ∀ (l : List Nat) (g : GraphState) (c : Nat),
      (removeConstraintListG g l).2 = none → c ∈ l →
        c ∉ (removeConstraintListG g l).1.constraints := by
  intro l
  induction l with
  | nil =>
    intro g c _ hc
    cases hc
  | cons c1 rest ih =>
    intro g c h hc
    simp only [removeConstraintListG] at h ⊢
    rcases hr : removeConstraintG g c1 with ⟨g1, err⟩
    rw [hr] at h
    cases err with
    | some e => simp at h
    | none =>
      rcases List.mem_cons.mp hc with hceq | hcrest
      · subst hceq
        have hg1 : g1.constraints = g.constraints.erase c := by
          unfold removeConstraintG at hr
          by_cases hm : c ∈ g.constraints
          · rw [if_pos hm] at hr
            cases hr
            rfl
          · rw [if_neg hm] at hr
            injection hr with h1 h2
            exact Option.noConfusion h2
        intro hfin
        have hmem := removeConstraintListG_subset rest g1 hfin
        rw [hg1] at hmem
        exact (Finset.not_mem_erase c _) hmem
      · exact ih g1 c h hcrest

theorem removeConstraintListG_err :
    ∀ (l : List Nat) (g : GraphState) (c : Nat), c ∈ l → c ∉ g.constraints →
      (removeConstraintListG g l).2 = some PyError.keyError := by
  intro l
  induction l with
  | nil =>
    intro g c hc _
    cases hc
  | cons c1 rest ih =>
    intro g c hc hcg
    simp only [removeConstraintListG]
    rcases hr : removeConstraintG g c1 with ⟨g1, err⟩
    cases err with
    | some er =>
      have her : er = PyError.keyError := by
        unfold removeConstraintG at hr
        by_cases hm : c1 ∈ g.constraints
        · rw [if_pos hm] at hr
          injection hr with h1 h2
          exact Option.noConfusion h2
        · rw [if_neg hm] at hr
          injection hr with h1 h2
          exact (Option.some.inj h2).symm
      subst her
      rfl
    | none =>
      rcases List.mem_cons.mp hc with hceq | hcrest
      · subst hceq
        unfold removeConstraintG at hr
        rw [if_neg hcg] at hr
        injection hr with h1 h2
        exact Option.noConfusion h2
      · apply ih g1 c hcrest
        intro hcg1
        apply hcg
        have hx := removeConstraintG_subset g c1
        rw [hr] at hx
        exact hx hcg1

theorem removeEntityG_inv (W : World) (hW : linkConsistent W) (g : GraphState) (e : Nat)
    (h : (removeEntityG W g e).2 = none) (hI : graphInv W g) :
    graphInv W (removeEntityG W g e).1 := by
  unfold removeEntityG at *
  by_cases he : e ∈ g.entities
  · rw [if_pos he] at h ⊢
    intro c1 hc1
    have hc1g : c1 ∈ g.constraints :=
      removeConstraintListG_subset (W.econstraints e)
        ⟨g.entities.erase e, g.constraints⟩ hc1
    obtain ⟨e1, he1, heq⟩ := hI c1 hc1g
    by_cases hee : e1 = e
    · subst hee
      have hmem := hW c1 e1 heq
      exact absurd hc1 (removeConstraintListG_removes _ _ c1 h hmem)
    · refine ⟨e1, ?_, heq⟩
      rw [removeConstraintListG_entities]
      exact Finset.mem_erase.mpr ⟨hee, he1⟩
  · rw [if_neg he] at h
    simp at h

/-! `Factory.link` on a freshly created constraint (claim C6 machinery). -/

theorem linkSys_fresh (s : Sys) (f : Factory) (eid : Nat) (e : Entity)
    (clause : Entity → Bool) (id comp : String)
    (he : alookup s.heapE eid = some e)
    (hcomp : alookup f.constraint_map id = some comp)
    (hid : comp = e.identifier) :
    (linkSys { s with heapC := s.heapC ++ [(freshId s.heapC, ⟨id, false, none, []⟩)] }
        f (freshId s.heapC) eid clause).2 = none ∧
    (linkSys { s with heapC := s.heapC ++ [(freshId s.heapC, ⟨id, false, none, []⟩)] }
        f (freshId s.heapC) eid clause).1.graphE = s.graphE ∧
    (linkSys { s with heapC := s.heapC ++ [(freshId s.heapC, ⟨id, false, none, []⟩)] }
        f (freshId s.heapC) eid clause).1.graphC = s.graphC ∧
    (linkSys { s with heapC := s.heapC ++ [(freshId s.heapC, ⟨id, false, none, []⟩)] }
        f (freshId s.heapC) eid clause).1.world.centity (freshId s.heapC) =
      some eid := by
  have hc : alookup (s.heapC ++ [(freshId s.heapC, (⟨id, false, none, []⟩ : Constraint))])
      (freshId s.heapC) = some ⟨id, false, none, []⟩ := alookup_snoc_fresh _ _
  have hlink : (⟨id, false, none, []⟩ : Constraint).link_to eid = ⟨id, false, some eid, []⟩ := rfl
  have he1 : alookup (heapSet s.heapE eid
      { e with constraints := e.constraints ++ [freshId s.heapC] }) eid =
      some { e with constraints := e.constraints ++ [freshId s.heapC] } :=
    alookup_heapSet_self _ _ _ _ he
  have hc1 : alookup (heapSet (s.heapC ++ [(freshId s.heapC,
      (⟨id, false, none, []⟩ : Constraint))]) (freshId s.heapC)
      (⟨id, false, some eid, []⟩ : Constraint)) (freshId s.heapC) =
      some ⟨id, false, some eid, []⟩ :=
    alookup_heapSet_self _ _ _ _ hc
  simp only [linkSys, hc, he, hcomp, hlink, hid, eq_self_iff_true, ite_true]
  refine ⟨?_, ?_, ?_, ?_⟩ <;>
    simp only [Sys.world, he1, hc1, alookup_heapSet_self _ _ _ _ hc1,
      setSatisfied_entity, Option.some_bind, ite_true]

theorem runGOps_inv (W : World) (hW : linkConsistent W) :
    ∀ (ops : List GOp) (g : GraphState), graphInv W g → opsOk W g ops = true →
      graphInv W (runGOps W g ops) := by
  intro ops
  induction ops with
  | nil =>
    intro g hI _
    exact hI
  | cons op rest ih =>
    intro g hI hok
    simp only [opsOk, Bool.and_eq_true, Option.isNone_iff_eq_none] at hok
    obtain ⟨h1, h2⟩ := hok
    simp only [runGOps]
    apply ih _ ?_ h2
    cases op with
    | addE e => exact addEntityG_inv W g e h1 hI
    | addC c => exact addConstraintG_inv W g c h1 hI
    | remE e => exact removeEntityG_inv W hW g e h1 hI
    | remC c => exact removeConstraintG_inv W g c hI


/-! Claim theorems. -/

/-- Claim C1, counterexample: the invariant as stated fails. In a world where
constraint 0 is linked to entity 0 but entity 0's constraint list is empty
(Python: `c.link_to(e)` without `e.add_constraint(c)`), the sequence
`add(c); remove(e)` raises nothing yet leaves constraint 0 in the constraint
set with its linked entity no longer in the entity set. -/
theorem C1_graph_invariant_counterexample :
    opsOk W0 graphEmpty [GOp.addC 0, GOp.remE 0] = true ∧
    ¬ graphInv W0 (runGOps W0 graphEmpty [GOp.addC 0, GOp.remE 0]) :=
  ⟨by decide, by decide⟩

/-- Claim C1 (amended): after any sequence of `add` / `remove` calls starting
from a newly constructed graph, provided every linked constraint appears in
its linked entity's constraint list (as `Factory.link` guarantees) and no
call in the sequence raises, every constraint in the graph's constraint set
is linked and its linked entity is in the graph's entity set. -/
theorem C1_graph_invariant_amended (W : World) (ops : List GOp)
    (hW : linkConsistent W) (hok : opsOk W graphEmpty ops = true) :
    graphInv W (runGOps W graphEmpty ops) := by
  apply runGOps_inv W hW ops graphEmpty ?_ hok
  intro c hc
  exact absurd hc (Finset.not_mem_empty c)

/-- Claim C1, witness: the amended invariant evaluated on a concrete
link-consistent world and call sequence. -/
theorem C1_graph_invariant_witness :
    graphInv Wgood (runGOps Wgood graphEmpty [GOp.addC 0, GOp.remE 0]) :=
  C1_graph_invariant_amended Wgood [GOp.addC 0, GOp.remE 0]
    (by
      intro c e h
      simp only [Wgood] at h ⊢
      by_cases hc : c = 0
      · subst hc
        simp only [eq_self_iff_true, if_true, Option.some.injEq] at h
        subst h
        simp
      · rw [if_neg hc] at h
        exact Option.noConfusion h)
    (by decide)

/-- Claim C2 (confirmed): across any sequence of `satisfy()` / `fail()` /
`check()` calls, the `onChange` callback is invoked at a call iff that call
changes `satisfied` (and then exactly once, with the new value); and any run
of `check()` calls with an unchanged clause result fires the callback at most
once in total. -/
theorem C2_edge_trigger :
    (∀ (c : Constraint) (op : COp),
      ((runCOp c op).1.satisfied ≠ c.satisfied →
        (runCOp c op).1.events = c.events ++ [(runCOp c op).1.satisfied]) ∧
      ((runCOp c op).1.satisfied = c.satisfied → (runCOp c op).1.events = c.events)) ∧
    (∀ (c : Constraint) (r : Bool) (n : Nat),
      (runChecks c r n).events.length ≤ c.events.length + 1) := by
  constructor
  · intro c op
    cases op with
    | satisfyOp => exact setSatisfied_events c true
    | failOp => exact setSatisfied_events c false
    | checkOp r =>
      rcases he : c.entity with _ | eid
      · have hx : runCOp c (COp.checkOp r) = (c, some PyError.warning) := by
          simp [runCOp, Constraint.check, he]
        rw [hx]
        exact ⟨fun hc => absurd rfl hc, fun _ => rfl⟩
      · have hx : (runCOp c (COp.checkOp r)).1 = setSatisfied c r := by
          simp [runCOp, Constraint.check, he]
        rw [hx]
        exact setSatisfied_events c r
  · intro c r n
    exact (runChecks_props c r n).2.1

/-- Claim C2, witness: a concrete `satisfy()` on an unsatisfied constraint
fires the callback with the new value, and five repeated `check()` calls fire
at most once. -/
theorem C2_edge_trigger_witness :
    (runCOp cW COp.satisfyOp).1.events =
      cW.events ++ [(runCOp cW COp.satisfyOp).1.satisfied] ∧
    (runChecks cW true 5).events.length ≤ cW.events.length + 1 :=
  ⟨(C2_edge_trigger.1 cW COp.satisfyOp).1 (by decide),
   C2_edge_trigger.2 cW true 5⟩

/-- Claim C3, counterexample: the claim fails for a schema key that is one of
the protected names. `identifier` is declared in `e3`'s schema with type
`str`, the value `"name"` has exactly that runtime type, yet the set fails
with `AttributeError` instead of succeeding. -/
theorem C3_schema_roundtrip_counterexample :
    alookup e3.attribute_map keyIdentifier = some PyType.tStr ∧
    typeOf (PyVal.vStr kName) = PyType.tStr ∧
    (e3.setattr keyIdentifier (PyVal.vStr kName)).2 = some PyError.attributeError :=
  ⟨by decide, rfl, by decide⟩

/-- Claim C3 (amended): for every schema attribute `k` that is not one of the
protected names `constraints` / `identifier` / `attribute_map`, setting a
value of exactly the declared runtime type succeeds and a subsequent get
returns it unchanged, while setting a value of any other runtime type fails
with `TypeError`. -/
theorem C3_schema_roundtrip_amended (e : Entity) (k : String) (t : PyType) (v : PyVal)
    (hk : k ∉ protectedAttrs) (ht : alookup e.attribute_map k = some t) :
    (typeOf v = t →
      (e.setattr k v).2 = none ∧
      (e.setattr k v).1.getattr k = Except.ok (GetRes.val v)) ∧
    (typeOf v ≠ t → e.setattr k v = (e, some PyError.typeError)) := by
  constructor
  · intro hv
    have hset : e.setattr k v = ({ e with attrs := setStore e.attrs k v }, none) := by
      simp only [Entity.setattr, if_neg hk, ht, hv, ite_true]
    constructor
    · rw [hset]
    · rw [hset]
      simp only [Entity.getattr, if_neg hk, alookup_setStore_self]
  · intro hv
    simp only [Entity.setattr, if_neg hk, ht, if_neg hv]

/-- Claim C3, witness: round trip and mismatch evaluated on a concrete
`subject` entity with schema `{name : str}`. -/
theorem C3_schema_roundtrip_witness :
    (e4.setattr kName (PyVal.vStr kSubject)).2 = none ∧
    (e4.setattr kName (PyVal.vStr kSubject)).1.getattr kName =
      Except.ok (GetRes.val (PyVal.vStr kSubject)) :=
  (C3_schema_roundtrip_amended e4 kName PyType.tStr (PyVal.vStr kSubject)
    (by decide) (by decide)).1 rfl

/-- Claim C4 (code bug): on the fresh `subject` entity `e4`, a get of the
declared-but-unset key `name` fails with `KeyError` as the claim says, and a
previously set value is returned unchanged; but a get of the undeclared key
`ghost` fails with `NameError` (the unbound name `protected` in
`_Entity.__getattr__`), not with a key-not-found error as the claim says. -/
theorem C4_get_keyerror_bug :
    e4.getattr kName = Except.error PyError.keyError ∧
    e4.getattr kGhost = Except.error PyError.nameError ∧
    (e4.setattr kName (PyVal.vStr kSubject)).1.getattr kName =
      Except.ok (GetRes.val (PyVal.vStr kSubject)) :=
  ⟨by decide, by decide, by decide⟩

/-- Claim C5 (confirmed): `Graph.add` on a constraint raises
`AssertionError` (the `UnlinkedConstraint` error) exactly when the constraint
is unlinked; when linked to entity `e`, it inserts the constraint into the
constraint set and `e` into the entity set and raises nothing. -/
theorem C5_add_unlinked (W : World) (g : GraphState) (c : Nat) :
    ((addConstraintG W g c).2 = some PyError.assertionError ↔ W.centity c = none) ∧
    (∀ e, W.centity c = some e →
      addConstraintG W g c = (⟨insert e g.entities, insert c g.constraints⟩, none)) := by
  rcases hc : W.centity c with _ | e
  · constructor
    · simp [addConstraintG, hc]
    · intro e he
      exact Option.noConfusion he
  · constructor
    · simp [addConstraintG, hc]
    · intro e1 he1
      have hee : e = e1 := Option.some.inj he1
      subst hee
      simp [addConstraintG, hc]

/-- Claim C5, witness: adding the linked constraint 0 to the empty graph
inserts it and its entity. -/
theorem C5_add_unlinked_witness :
    addConstraintG W0 graphEmpty 0 =
      (⟨insert 0 graphEmpty.entities, insert 0 graphEmpty.constraints⟩, none) :=
  (C5_add_unlinked W0 graphEmpty 0).2 0 rfl

/-- Claim C7 (confirmed): a failing `set` raises before mutating, so the
entity (in particular every previously stored attribute, and the absence of a
value for the failed key) is unchanged. -/
theorem C7_failed_set_frame (e : Entity) (k : String) (v : PyVal)
    (h : (e.setattr k v).2.isSome = true) :
    (e.setattr k v).1 = e ∧
    alookup (e.setattr k v).1.attrs k = alookup e.attrs k := by
  rcases setattr_none_or_id e k v with h1 | h1
  · rw [h1] at h
    simp at h
  · exact ⟨h1, by rw [h1]⟩

/-- Claim C7, witness: a set of the undeclared key `ghost` fails and leaves
`e4` unchanged. -/
theorem C7_failed_set_frame_witness :
    (e4.setattr kGhost (PyVal.vInt 3)).1 = e4 ∧
    alookup (e4.setattr kGhost (PyVal.vInt 3)).1.attrs kGhost = alookup e4.attrs kGhost :=
  C7_failed_set_frame e4 kGhost (PyVal.vInt 3) (by decide)

/-- Claim C8 (confirmed): `link_to` sets the linked entity only when unset,
so after `link_to(e1); link_to(e2)` the linked entity is `e1`, the repeated
call is a complete no-op (no re-link, and `link_to` is total so no error),
and a linked constraint is never re-linked. -/
theorem C8_link_first_write_wins (c : Constraint) (e1 e2 : Nat) :
    (c.entity = none →
      (c.link_to e1).entity = some e1 ∧ (c.link_to e1).link_to e2 = c.link_to e1) ∧
    (∀ e0, c.entity = some e0 → c.link_to e1 = c) := by
  constructor
  · intro h
    constructor
    · simp [Constraint.link_to, h]
    · simp [Constraint.link_to, h]
  · intro e0 h
    simp [Constraint.link_to, h]

/-- Claim C8, witness: first-write-wins evaluated on the unlinked `cU`. -/
theorem C8_link_first_write_wins_witness :
    (cU.link_to 1).entity = some 1 ∧ (cU.link_to 1).link_to 2 = cU.link_to 1 :=
  (C8_link_first_write_wins cU 1 2).1 rfl

/-- Claim C9 (confirmed): `Graph.remove` of an absent entity or constraint
raises `KeyError` (leaving the graph unchanged) rather than being a no-op;
and removing a present entity whose constraint list holds a constraint absent
from the constraint set raises `KeyError` only after the entity itself has
been removed from the entity set. -/
theorem C9_remove_missing_raises (W : World) (g : GraphState) :
    (∀ e, e ∉ g.entities → removeEntityG W g e = (g, some PyError.keyError)) ∧
    (∀ c, c ∉ g.constraints → removeConstraintG g c = (g, some PyError.keyError)) ∧
    (∀ e c, e ∈ g.entities → c ∈ W.econstraints e → c ∉ g.constraints →
      (removeEntityG W g e).2 = some PyError.keyError ∧
      e ∉ (removeEntityG W g e).1.entities) := by
  refine ⟨?_, ?_, ?_⟩
  · intro e he
    unfold removeEntityG
    rw [if_neg he]
  · intro c hc
    unfold removeConstraintG
    rw [if_neg hc]
  · intro e c he hc hcg
    unfold removeEntityG
    rw [if_pos he]
    constructor
    · exact removeConstraintListG_err (W.econstraints e)
        ⟨g.entities.erase e, g.constraints⟩ c hc hcg
    · rw [removeConstraintListG_entities]
      exact Finset.not_mem_erase e g.entities

/-- Claim C9, witness: removing entity 0 from a graph that holds it while its
listed constraint 0 is absent from the constraint set raises `KeyError` with
the entity already gone. -/
theorem C9_remove_missing_raises_witness :
    (removeEntityG Wgood gW 0).2 = some PyError.keyError ∧
    0 ∉ (removeEntityG Wgood gW 0).1.entities :=
  (C9_remove_missing_raises Wgood gW).2.2 0 0 (by decide) (by decide) (by decide)

/-- Claim C10 (confirmed): `Factory.link` on a constraint whose identifier is
not in the constraint registry fails with `KeyError` from the unguarded
registry access, before the compatibility check, leaving the whole system (in
particular the constraint's linkage and the entity's constraint list)
unchanged. -/
theorem C10_link_unregistered (s : Sys) (f : Factory) (cid eid : Nat)
    (clause : Entity → Bool) (c : Constraint) (e : Entity)
    (hc : alookup s.heapC cid = some c)
    (he : alookup s.heapE eid = some e)
    (hreg : alookup f.constraint_map c.identifier = none) :
    linkSys s f cid eid clause = (s, some PyError.keyError) := by
  simp only [linkSys, hc, he, hreg]

/-- Claim C10, witness: linking the unregistered-type constraint `cGhost` to
`e4` through `f0` fails with `KeyError` and changes nothing. -/
theorem C10_link_unregistered_witness :
    linkSys sX f0 0 0 (fun _ => true) = (sX, some PyError.keyError) :=
  C10_link_unregistered sX f0 0 0 (fun _ => true) cGhost e4
    (by decide) (by decide) (by decide)

/-- Claim C6, counterexample: with a factory present and constraint type `c1`
registered, `Graph.create_constraint` with no target entity returns the new
constraint (heap id 1) but does NOT register it into the graph's membership
sets, contradicting the claim that `create_constraint` registers the created
object into the graph's own sets. -/
theorem C6_factory_passthroughs_counterexample :
    (createConstraintG s0 kC1 (fun _ => true) none).2.2 = some 1 ∧
    1 ∉ (createConstraintG s0 kC1 (fun _ => true) none).1.graphC ∧
    (createConstraintG s0 kC1 (fun _ => true) none).1.graphC = ∅ :=
  ⟨by decide, by decide, by decide⟩

/-- Claim C6 (amended): with no factory, all four passthroughs are no-ops
returning nothing; with a factory, `create_entity` registers the created
entity into the graph's entity set, while `create_constraint` registers the
created constraint (and its target entity) into the graph's sets only when a
target entity is supplied, as part of the link-and-add step; with no target
it only returns the constraint, leaving both graph sets unchanged. -/
theorem C6_factory_passthroughs :
    (∀ (s : Sys) (id : String) (am : List (String × PyType)),
      s.factory = none → registerEntityG s id am = s) ∧
    (∀ (s : Sys) (id et : String),
      s.factory = none → registerConstraintG s id et = (s, none)) ∧
    (∀ (s : Sys) (id : String) (obj : Option (List (String × PyVal))),
      s.factory = none → createEntityG s id obj = (s, none, none)) ∧
    (∀ (s : Sys) (id : String) (cl : Entity → Bool) (lt : Option Nat),
      s.factory = none → createConstraintG s id cl lt = (s, none, none)) ∧
    (∀ (s : Sys) (f : Factory) (id : String) (obj : Option (List (String × PyVal)))
      (ent : Entity), s.factory = some f → f.create_entity id obj = Except.ok ent →
      (createEntityG s id obj).2.1 = none ∧
      (createEntityG s id obj).2.2 = some (freshId s.heapE) ∧
      freshId s.heapE ∈ (createEntityG s id obj).1.graphE) ∧
    (∀ (s : Sys) (f : Factory) (id : String) (cl : Entity → Bool) (comp : String),
      s.factory = some f → alookup f.constraint_map id = some comp →
      (createConstraintG s id cl none).2.1 = none ∧
      (createConstraintG s id cl none).2.2 = some (freshId s.heapC) ∧
      (createConstraintG s id cl none).1.graphE = s.graphE ∧
      (createConstraintG s id cl none).1.graphC = s.graphC) ∧
    (∀ (s : Sys) (f : Factory) (id : String) (cl : Entity → Bool) (eid : Nat)
      (e : Entity) (comp : String),
      s.factory = some f → alookup f.constraint_map id = some comp →
      alookup s.heapE eid = some e → comp = e.identifier →
      (createConstraintG s id cl (some eid)).2.1 = none ∧
      (createConstraintG s id cl (some eid)).2.2 = some (freshId s.heapC) ∧
      freshId s.heapC ∈ (createConstraintG s id cl (some eid)).1.graphC ∧
      eid ∈ (createConstraintG s id cl (some eid)).1.graphE) := by
  refine ⟨?_, ?_, ?_, ?_, ?_, ?_, ?_⟩
  · intro s id am h
    simp only [registerEntityG, h]
  · intro s id et h
    simp only [registerConstraintG, h]
  · intro s id obj h
    simp only [createEntityG, h]
  · intro s id cl lt h
    simp only [createConstraintG, h]
  · intro s f id obj ent hf hent
    have hcons : ent.constraints = [] := create_entity_ok_constraints f id obj ent hent
    have heid : alookup (s.heapE ++ [(freshId s.heapE, ent)]) (freshId s.heapE) =
        some ent := alookup_snoc_fresh _ _
    simp only [createEntityG, hf, hent, addEntityG, Sys.world, heid, Option.map_some',
      Option.getD_some, hcons, addConstraintListG]
    simp
  · intro s f id cl comp hf hcomp
    simp only [createConstraintG, hf, Factory.create_constraint, hcomp]
    simp
  · intro s f id cl eid e comp hf hcomp he hid
    obtain ⟨h1, h2, h3, h4⟩ := linkSys_fresh s f eid e cl id comp he hcomp hid
    rw [hf] at h1 h4
    simp only [createConstraintG, hf, Factory.create_constraint, hcomp]
    rcases hls : linkSys
        { heapE := s.heapE,
          heapC := s.heapC ++ [(freshId s.heapC, ⟨id, false, none, []⟩)],
          graphE := s.graphE, graphC := s.graphC, factory := some f }
        f (freshId s.heapC) eid cl with ⟨s2, lerr⟩
    rw [hls] at h1 h4
    cases lerr with
    | some er => simp at h1
    | none =>
      dsimp only at h4 ⊢
      simp only [addConstraintG, h4]
      simp

/-- Claim C6, witness: the no-factory no-op, `create_entity` adding entity 1,
and `create_constraint` with target entity 1 adding both, evaluated on
concrete systems. -/
theorem C6_factory_passthroughs_witness :
    createConstraintG s0n kC1 (fun _ => true) none = (s0n, none, none) ∧
    freshId s0.heapE ∈ (createEntityG s0 kSubject none).1.graphE ∧
    freshId sE.heapC ∈ (createConstraintG sE kC1 (fun _ => true) (some 1)).1.graphC ∧
    1 ∈ (createConstraintG sE kC1 (fun _ => true) (some 1)).1.graphE :=
  ⟨C6_factory_passthroughs.2.2.2.1 s0n kC1 (fun _ => true) none rfl,
   (C6_factory_passthroughs.2.2.2.2.1 s0 f0 kSubject none entSubject rfl (by decide)).2.2,
   (C6_factory_passthroughs.2.2.2.2.2.2 sE f0 kC1 (fun _ => true) 1 entSubject kSubject
     (by decide) (by decide) (by decide) (by decide)).2.2.1,
   (C6_factory_passthroughs.2.2.2.2.2.2 sE f0 kC1 (fun _ => true) 1 entSubject kSubject
     (by decide) (by decide) (by decide) (by decide)).2.2.2⟩
